import Mathlib

/-!
Verification of the task state engine of a single-page task-list manager
(source: src/src/App.tsx). The in-memory collection of tasks, the mutation
operations (add, toggle, delete), the derived views (filtered lists, counts)
and the persistence layer (localStorage with JSON serialization and ISO-8601
date encoding) are embedded as executable Lean definitions, and the spec's
properties are proved about them.
-/

/-- A task. Matches the `Todo` object literal built in App.tsx lines 53-58
(the type declaration itself lives in src/types.ts, outside the snapshot;
the spec's data-model section lists the same four fields). `createdAt` is a
JavaScript `Date`, represented by its millisecond timestamp; every date the
program creates comes from `new Date()` and is hence a non-negative number. -/
structure Todo where
  id : String
  text : String
  completed : Bool
  createdAt : Nat
deriving DecidableEq

/-- The filter selection, App.tsx line 25 (`TodoFilter` from src/types.ts,
spec: closed set all / active / completed). -/
inductive TodoFilter where
  | all
  | active
  | completed
deriving DecidableEq

/-- A transient notification emitted by a mutation (the `toast.error` /
`toast.success` calls in App.tsx). -/
inductive Toast where
  | error (msg : String)
  | success (msg : String)
deriving DecidableEq

/-- Whether a notification signals an error. -/
def Toast.isError : Toast → Bool
  | .error _ => true
  | .success _ => false

/-- The WhiteSpace / LineTerminator set of ECMAScript `String.prototype.trim`
(code points, including NBSP, BOM and the Unicode space separators). -/
def isJsWhitespace (c : Char) : Bool :=
  let n := c.toNat
  n == 9 || n == 10 || n == 11 || n == 12 || n == 13 || n == 32 || n == 160 ||
    n == 5760 || (decide (8192 ≤ n) && decide (n ≤ 8202)) || n == 8232 ||
    n == 8233 || n == 8239 || n == 8287 || n == 12288 || n == 65279

/-- ECMAScript `String.prototype.trim`: drop leading and trailing whitespace. -/
def jsTrim (s : String) : String :=
  String.mk (((s.data.dropWhile isJsWhitespace).reverse.dropWhile isJsWhitespace).reverse)

/-- `addTodo`, App.tsx lines 47-63. The empty-check is JS string falsiness of
`newTodoText.trim()`. The two effect-free inputs `generateId()` (src/lib/utils,
outside the snapshot; spec: fresh unique id) and `new Date()` are passed in as
the parameters `newId` and `now`. Returns the new collection together with the
toasts emitted. -/
def addTodo (newId : String) (now : Nat) (newTodoText : String) (todos : List Todo) :
    List Todo × List Toast :=
  if jsTrim newTodoText = "" then
    (todos, [Toast.error "Task cannot be empty"])
  else
    ({ id := newId, text := jsTrim newTodoText, completed := false, createdAt := now } :: todos,
      [Toast.success "Task added"])

/-- The body of the `todos.map` callback in `toggleTodo`, App.tsx lines 67-77:
the updated task plus the toasts the callback fires for it. -/
def toggleOne (id : String) (todo : Todo) : Todo × List Toast :=
  if todo.id = id then
    let newStatus := !todo.completed
    ({ todo with completed := newStatus },
      if newStatus then [Toast.success "Task completed! 🎉"] else [])
  else (todo, [])

/-- `toggleTodo`, App.tsx lines 65-79: map over the collection, flipping the
matching task's `completed`; collect the toasts fired during the map. -/
def toggleTodo (id : String) (todos : List Todo) : List Todo × List Toast :=
  (todos.map fun todo => (toggleOne id todo).1,
    todos.flatMap fun todo => (toggleOne id todo).2)

/-- `deleteTodo`, App.tsx lines 81-84: filter out the matching id;
unconditionally toasts success. -/
def deleteTodo (id : String) (todos : List Todo) : List Todo × List Toast :=
  (todos.filter fun todo => todo.id ≠ id, [Toast.success "Task deleted"])

/-- `filteredTodos`, App.tsx lines 86-90. -/
def filteredTodos (filter : TodoFilter) (todos : List Todo) : List Todo :=
  todos.filter fun todo =>
    match filter with
    | .active => !todo.completed
    | .completed => todo.completed
    | .all => true

/-- `activeTodosCount`, App.tsx line 92. -/
def activeTodosCount (todos : List Todo) : Nat :=
  (todos.filter fun todo => !todo.completed).length

/-- `completedTodosCount`, App.tsx line 93. -/
def completedTodosCount (todos : List Todo) : Nat :=
  (todos.filter fun todo => todo.completed).length

/-- A state-engine mutation, for reasoning about operation sequences.
The add case carries the effect-free inputs of `addTodo`. -/
inductive Op where
  | add (newId : String) (now : Nat) (text : String)
  | toggle (id : String)
  | delete (id : String)

/-- Apply one mutation to the collection (the collection component of the
corresponding App.tsx handler). -/
def applyOp (op : Op) (todos : List Todo) : List Todo :=
  match op with
  | .add newId now text => (addTodo newId now text todos).1
  | .toggle id => (toggleTodo id todos).1
  | .delete id => (deleteTodo id todos).1

/-- Apply a sequence of mutations, oldest first. -/
def applyOps (ops : List Op) (todos : List Todo) : List Todo :=
  ops.foldl (fun ts op => applyOp op ts) todos

theorem counts_partition (todos : List Todo) :
    activeTodosCount todos + completedTodosCount todos = todos.length := by
  induction todos with
  | nil => rfl
  | cons t ts ih =>
    simp only [activeTodosCount, completedTodosCount, List.filter_cons] at *
    cases h : t.completed <;> simp_all <;> omega

/-- Claim C1: for every Task Collection reachable by any sequence of
AddTask/ToggleTask/DeleteTask operations from any starting collection,
activeCount plus completedCount equals the total number of tasks after
every operation. -/
theorem counts_invariant_ops (ops : List Op) (todos : List Todo) :
    activeTodosCount (applyOps ops todos) + completedTodosCount (applyOps ops todos)
      = (applyOps ops todos).length :=
  counts_partition (applyOps ops todos)

/-- Claim C2: for every input whose trimmed form is empty, AddTask fails with
the validation error toast and leaves the Task Collection exactly unchanged. -/
theorem addTodo_empty_rejected (newId : String) (now : Nat) (rawText : String)
    (todos : List Todo) (h : jsTrim rawText = "") :
    addTodo newId now rawText todos = (todos, [Toast.error "Task cannot be empty"]) := by
  simp [addTodo, h]

theorem addTodo_empty_rejected_witness :
    jsTrim "   " = "" ∧
      addTodo "id1" 1700000000000 "   " [] = ([], [Toast.error "Task cannot be empty"]) :=
  ⟨by decide, addTodo_empty_rejected "id1" 1700000000000 "   " [] (by decide)⟩

/-- Claim C3: for every input whose trimmed form is non-empty, AddTask prepends
a new task with the trimmed text, completed = false and createdAt = now, the
first element of the all-filter view is that task, and the rest is the prior
collection unchanged. -/
theorem addTodo_prepends (newId : String) (now : Nat) (rawText : String)
    (todos : List Todo) (h : jsTrim rawText ≠ "") :
    (addTodo newId now rawText todos).1
        = { id := newId, text := jsTrim rawText, completed := false,
            createdAt := now } :: todos
      ∧ filteredTodos TodoFilter.all (addTodo newId now rawText todos).1
        = { id := newId, text := jsTrim rawText, completed := false,
            createdAt := now } :: todos
      ∧ (filteredTodos TodoFilter.all (addTodo newId now rawText todos).1).head?
        = some { id := newId, text := jsTrim rawText, completed := false,
                 createdAt := now } := by
  have hall : ∀ l : List Todo, filteredTodos TodoFilter.all l = l := by
    intro l; simp [filteredTodos]
  refine ⟨?_, ?_, ?_⟩ <;> simp [addTodo, h, hall]

theorem addTodo_prepends_witness :
    jsTrim "Buy milk" ≠ "" ∧
      (addTodo "id1" 1700000000000 "Buy milk" []).1
        = [{ id := "id1", text := jsTrim "Buy milk", completed := false,
             createdAt := 1700000000000 }] :=
  ⟨by decide, (addTodo_prepends "id1" 1700000000000 "Buy milk" [] (by decide)).1⟩

theorem toggleOne_involutive (id : String) (todo : Todo) :
    (toggleOne id (toggleOne id todo).1).1 = todo := by
  obtain ⟨a, b, c, d⟩ := todo
  by_cases h : a = id
  · subst h; simp [toggleOne]
  · simp [toggleOne, h]

/-- Claim C4: for every Task Collection and every id of a task present in it,
applying ToggleTask(id) twice in succession returns the collection to its
original value (so in particular that task regains its original completed
flag). -/
theorem toggleTodo_involution (id : String) (todos : List Todo)
    (h : ∃ t ∈ todos, t.id = id) :
    (toggleTodo id (toggleTodo id todos).1).1 = todos := by
  clear h
  simp only [toggleTodo, List.map_map]
  have : ∀ t : Todo, ((toggleOne id (toggleOne id t).1).1) = t :=
    toggleOne_involutive id
  simp [Function.comp_def, this]

theorem toggleTodo_involution_witness :
    (∃ t ∈ [{ id := "a", text := "x", completed := false, createdAt := 0 : Todo }],
        t.id = "a") ∧
      (toggleTodo "a" (toggleTodo "a"
          [{ id := "a", text := "x", completed := false, createdAt := 0 : Todo }]).1).1
        = [{ id := "a", text := "x", completed := false, createdAt := 0 : Todo }] :=
  ⟨by decide, toggleTodo_involution "a" _ (by decide)⟩

theorem toggleTodo_absent_parts (id : String) (todos : List Todo)
    (h : ∀ t ∈ todos, t.id ≠ id) :
    (toggleTodo id todos).1 = todos ∧ (toggleTodo id todos).2 = [] := by
  induction todos with
  | nil => exact ⟨rfl, rfl⟩
  | cons t ts ih =>
    have ht : t.id ≠ id := h t (List.mem_cons_self t ts)
    obtain ⟨ih1, ih2⟩ := ih fun x hx => h x (List.mem_cons_of_mem t hx)
    simp only [toggleTodo, List.map_cons, List.flatMap_cons] at ih1 ih2 ⊢
    have h1 : (toggleOne id t).1 = t := by simp [toggleOne, ht]
    have h2 : (toggleOne id t).2 = [] := by simp [toggleOne, ht]
    rw [h1, ih1, h2, ih2]
    simp

/-- Claim C5: for every Task Collection and every id not present in it,
ToggleTask(id) and DeleteTask(id) leave the collection exactly unchanged and
raise no error to the caller (the toggle fires no toast at all, the delete
only its unconditional success toast). -/
theorem toggle_delete_absent_noop (id : String) (todos : List Todo)
    (h : ∀ t ∈ todos, t.id ≠ id) :
    (toggleTodo id todos).1 = todos ∧ (toggleTodo id todos).2 = []
      ∧ (deleteTodo id todos).1 = todos
      ∧ ∀ toast ∈ (toggleTodo id todos).2 ++ (deleteTodo id todos).2,
          toast.isError = false := by
  obtain ⟨h1, h2⟩ := toggleTodo_absent_parts id todos h
  refine ⟨h1, h2, ?_, ?_⟩
  · simp only [deleteTodo]
    apply List.filter_eq_self.mpr
    intro t ht
    simpa using h t ht
  · intro toast htoast
    rw [h2] at htoast
    simp only [deleteTodo, List.nil_append, List.mem_singleton] at htoast
    subst htoast
    rfl

theorem toggle_delete_absent_noop_witness :
    (∀ t ∈ [{ id := "a", text := "x", completed := false, createdAt := 0 : Todo }],
        t.id ≠ "b") ∧
      (toggleTodo "b"
          [{ id := "a", text := "x", completed := false, createdAt := 0 : Todo }]).1
        = [{ id := "a", text := "x", completed := false, createdAt := 0 : Todo }] :=
  ⟨by decide, (toggle_delete_absent_noop "b" _ (by decide)).1⟩

/-- Claim C6: DerivedView(filter) is a pure function returning exactly the
tasks matching the filter in collection order (each view is a sublist of the
collection); the all-view is the collection itself; the active and completed
views are disjoint and together contain exactly the full collection (both by
membership and by count). -/
theorem filteredTodos_spec (todos : List Todo) :
    filteredTodos TodoFilter.all todos = todos
      ∧ (∀ filter : TodoFilter, (filteredTodos filter todos).Sublist todos)
      ∧ List.Disjoint (filteredTodos TodoFilter.active todos)
          (filteredTodos TodoFilter.completed todos)
      ∧ (∀ t : Todo, t ∈ todos ↔
          (t ∈ filteredTodos TodoFilter.active todos
            ∨ t ∈ filteredTodos TodoFilter.completed todos))
      ∧ (filteredTodos TodoFilter.active todos).length
          + (filteredTodos TodoFilter.completed todos).length = todos.length := by
  refine ⟨by simp [filteredTodos], fun filter => List.filter_sublist todos, ?_, ?_, ?_⟩
  · intro t ht ht2
    simp only [filteredTodos, List.mem_filter] at ht ht2
    rcases ht with ⟨-, ha⟩
    rcases ht2 with ⟨-, hc⟩
    simp at ha hc
    simp [ha] at hc
  · intro t
    constructor
    · intro ht
      by_cases hc : t.completed
      · exact Or.inr (by simp [filteredTodos, List.mem_filter, ht, hc])
      · exact Or.inl (by simp [filteredTodos, List.mem_filter, ht, hc])
    · intro ht
      rcases ht with ht | ht <;>
        exact (List.mem_filter.mp ht).1
  · have := counts_partition todos
    simpa [activeTodosCount, completedTodosCount, filteredTodos] using this

theorem filteredTodos_spec_witness :
    filteredTodos TodoFilter.all
        [{ id := "a", text := "x", completed := false, createdAt := 0 : Todo }]
      = [{ id := "a", text := "x", completed := false, createdAt := 0 : Todo }] :=
  (filteredTodos_spec
    [{ id := "a", text := "x", completed := false, createdAt := 0 : Todo }]).1

theorem toggleTodo_toasts_absent (id : String) (todos : List Todo)
    (h : ∀ t ∈ todos, t.id ≠ id) : (toggleTodo id todos).2 = [] :=
  (toggleTodo_absent_parts id todos h).2

/-- Claim C9: for a Task Collection with unique ids and an id present in it,
ToggleTask(id) signals the distinct completed notification exactly when the
matching task's completed flag transitions from false to true, and signals
nothing on the true-to-false transition. -/
theorem toggleTodo_completed_toast (id : String) (todos : List Todo) (t : Todo)
    (huniq : todos.Pairwise fun a b => a.id ≠ b.id)
    (hmem : t ∈ todos) (hid : t.id = id) :
    (toggleTodo id todos).2
      = if t.completed then [] else [Toast.success "Task completed! 🎉"] := by
  induction todos with
  | nil => cases hmem
  | cons x ts ih =>
    rcases List.pairwise_cons.mp huniq with ⟨hx, hts⟩
    rcases List.mem_cons.mp hmem with rfl | hmem2
    · have hrest : (toggleTodo id ts).2 = [] := by
        apply toggleTodo_toasts_absent
        intro y hy
        rw [← hid]
        exact fun hc => hx y hy hc.symm
      simp only [toggleTodo, List.flatMap_cons] at hrest ⊢
      rw [hrest]
      by_cases hc : t.completed <;> simp [toggleOne, hid, hc]
    · have hxid : x.id ≠ id := by rw [← hid]; exact hx t hmem2
      have := ih hts hmem2
      simp only [toggleTodo, List.flatMap_cons] at this ⊢
      rw [this]
      simp [toggleOne, hxid]

theorem toggleTodo_completed_toast_witness :
    (toggleTodo "a"
        [{ id := "a", text := "x", completed := false, createdAt := 0 : Todo }]).2
      = [Toast.success "Task completed! 🎉"] := by
  have h := toggleTodo_completed_toast "a"
    [{ id := "a", text := "x", completed := false, createdAt := 0 : Todo }]
    { id := "a", text := "x", completed := false, createdAt := 0 } (by decide)
    (by decide) (by decide)
  simpa using h

/-- Claim C10: ToggleTask(id) preserves the length and order of the collection,
keeps every task's id, text and createdAt, and leaves any task whose id
differs from the given id entirely unchanged. -/
theorem toggleTodo_frame (id : String) (todos : List Todo) :
    (toggleTodo id todos).1.length = todos.length
      ∧ (toggleTodo id todos).1.map Todo.id = todos.map Todo.id
      ∧ (toggleTodo id todos).1.map Todo.text = todos.map Todo.text
      ∧ (toggleTodo id todos).1.map Todo.createdAt = todos.map Todo.createdAt
      ∧ ∀ p ∈ (toggleTodo id todos).1.zip todos, p.2.id ≠ id → p.1 = p.2 := by
  have hid : ∀ t : Todo, ((toggleOne id t).1).id = t.id := by
    intro t; by_cases h : t.id = id <;> simp [toggleOne, h]
  have htext : ∀ t : Todo, ((toggleOne id t).1).text = t.text := by
    intro t; by_cases h : t.id = id <;> simp [toggleOne, h]
  have hdate : ∀ t : Todo, ((toggleOne id t).1).createdAt = t.createdAt := by
    intro t; by_cases h : t.id = id <;> simp [toggleOne, h]
  refine ⟨by simp [toggleTodo], ?_, ?_, ?_, ?_⟩
  · simp [toggleTodo, List.map_map, Function.comp_def, hid]
  · simp [toggleTodo, List.map_map, Function.comp_def, htext]
  · simp [toggleTodo, List.map_map, Function.comp_def, hdate]
  · intro p hp hpne
    simp only [toggleTodo] at hp
    induction todos with
    | nil => cases hp
    | cons x ts ih =>
      simp only [List.map_cons, List.zip_cons_cons, List.mem_cons] at hp
      rcases hp with rfl | hp2
      · simp only at hpne ⊢
        simp [toggleOne, hpne]
      · exact ih hp2

theorem toggleTodo_frame_witness :
    (toggleTodo "b"
        [{ id := "a", text := "x", completed := false, createdAt := 0 : Todo }]).1.length
      = 1 ∧
      ({ id := "a", text := "x", completed := false, createdAt := 0 : Todo },
        { id := "a", text := "x", completed := false, createdAt := 0 : Todo }).1
        = ({ id := "a", text := "x", completed := false, createdAt := 0 : Todo },
          { id := "a", text := "x", completed := false, createdAt := 0 : Todo }).2 :=
  ⟨(toggleTodo_frame "b"
      [{ id := "a", text := "x", completed := false, createdAt := 0 : Todo }]).1,
    (toggleTodo_frame "b"
      [{ id := "a", text := "x", completed := false, createdAt := 0 : Todo }]).2.2.2.2
      ({ id := "a", text := "x", completed := false, createdAt := 0 : Todo },
        { id := "a", text := "x", completed := false, createdAt := 0 : Todo })
      (by decide) (by decide)⟩

/-!
Persistence layer. The program saves with `JSON.stringify(todos)` (App.tsx
line 34), which serializes each `createdAt` Date through `toISOString`, and
restores with the `useState` initializer (lines 9-22): `JSON.parse` with a
reviver turning every value stored under the key `createdAt` into
`new Date(value)`, falling back to the empty array when the key is absent or
the stored text fails to parse as JSON. The JSON text layer is abstracted to
parse trees: a stored string is either malformed (JSON.parse throws) or
carries a tree. Dates are millisecond timestamps; the ISO-8601 codec of the
JavaScript runtime is modelled concretely below.
-/

/-- Gregorian decomposition days → (year, month, day) as performed inside
Date.prototype.toISOString; Hinnant's civil-from-days algorithm on days
counted from 0000-03-01. -/
def civilFromDays (z : Nat) : Nat × Nat × Nat :=
  let era := z / 146097
  let doe := z % 146097
  let yoe := (doe - doe / 1460 + doe / 36524 - doe / 146096) / 365
  let y := yoe + era * 400
  let doy := doe - (365 * yoe + yoe / 4 - yoe / 100)
  let mp := (5 * doy + 2) / 153
  let d := doy - (153 * mp + 2) / 5 + 1
  let m := if mp < 10 then mp + 3 else mp - 9
  (if m ≤ 2 then y + 1 else y, m, d)

/-- Inverse Gregorian conversion (year, month, day) → days since 0000-03-01
plus 146097: computed with a one-era (400-year) positive shift so that the
arithmetic stays in Nat for every year the parser accepts (0..9999). -/
def daysFromCivilShifted (y m d : Nat) : Nat :=
  let y2 := if m ≤ 2 then y + 399 else y + 400
  let era := y2 / 400
  let yoe := y2 % 400
  let doy := (153 * (if 2 < m then m - 3 else m + 9) + 2) / 5 + d - 1
  let doe := yoe * 365 + yoe / 4 - yoe / 100 + doy
  era * 146097 + doe

/-- Gregorian leap-year rule. -/
def isLeapYear (y : Nat) : Bool :=
  decide (y % 4 = 0 ∧ (¬ y % 100 = 0 ∨ y % 400 = 0))

/-- Length of a month, leap-aware, as used by the date-string validation of
the JavaScript engine. -/
def daysInMonth (y m : Nat) : Nat :=
  if m = 2 then (if isLeapYear y then 29 else 28)
  else if m = 4 ∨ m = 6 ∨ m = 9 ∨ m = 11 then 30
  else 31

set_option maxHeartbeats 2000000 in
theorem civil_core (doe s yoe : Nat) (h : doe < 146097)
    (hs : s = doe - doe / 1460 + doe / 36524 - doe / 146096)
    (hy : yoe = s / 365) :
    yoe < 400 ∧ 365 * yoe + yoe / 4 - yoe / 100 ≤ doe ∧
      doe - (365 * yoe + yoe / 4 - yoe / 100) < 366 ∧
      (doe - (365 * yoe + yoe / 4 - yoe / 100) = 365 →
        ((yoe + 1) % 4 = 0 ∧ ((yoe + 1) % 100 ≠ 0 ∨ (yoe + 1) % 400 = 0))) := by
  have hyb : yoe < 401 := by omega
  interval_cases yoe <;> omega

set_option maxRecDepth 8192 in
theorem month_table : ∀ doy < 366,
    (5 * doy + 2) / 153 < 12 ∧ (153 * ((5 * doy + 2) / 153) + 2) / 5 ≤ doy ∧
      1 ≤ doy - (153 * ((5 * doy + 2) / 153) + 2) / 5 + 1 ∧
      doy - (153 * ((5 * doy + 2) / 153) + 2) / 5 + 1 ≤ 31 ∧
      ((5 * doy + 2) / 153 = 1 ∨ (5 * doy + 2) / 153 = 3 ∨
        (5 * doy + 2) / 153 = 6 ∨ (5 * doy + 2) / 153 = 8 →
        doy - (153 * ((5 * doy + 2) / 153) + 2) / 5 + 1 ≤ 30) ∧
      ((5 * doy + 2) / 153 = 11 →
        doy - (153 * ((5 * doy + 2) / 153) + 2) / 5 + 1 ≤ 29 ∧
          (doy - (153 * ((5 * doy + 2) / 153) + 2) / 5 + 1 = 29 → doy = 365)) ∧
      (10 ≤ (5 * doy + 2) / 153 ↔ 306 ≤ doy) := by decide

theorem civil_reconstruct (era doe yoe doy mp : Nat)
    (hdoe : doe < 146097)
    (hyoe : yoe = (doe - doe / 1460 + doe / 36524 - doe / 146096) / 365)
    (hdoy : doy = doe - (365 * yoe + yoe / 4 - yoe / 100))
    (hmp : mp = (5 * doy + 2) / 153) :
    daysFromCivilShifted
        (if (if mp < 10 then mp + 3 else mp - 9) ≤ 2 then yoe + era * 400 + 1
          else yoe + era * 400)
        (if mp < 10 then mp + 3 else mp - 9)
        (doy - (153 * mp + 2) / 5 + 1)
      = (era + 1) * 146097 + doe := by
  obtain ⟨hyoe400, hle, hdoy366, -⟩ := civil_core doe _ yoe hdoe rfl hyoe
  clear hyoe
  rw [← hdoy] at hdoy366
  obtain ⟨hmp12, hd5, hdd1, -, -, -, -⟩ := month_table doy hdoy366
  rw [← hmp] at hmp12 hd5
  have hdoyEq : 365 * yoe + yoe / 4 - yoe / 100 + doy = doe := by omega
  clear hdoy hmp hle hdoy366
  by_cases hcase : mp < 10
  · have hm3 : ¬ ((if mp < 10 then mp + 3 else mp - 9) ≤ 2) := by
      rw [if_pos hcase]; omega
    rw [if_neg hm3, if_pos hcase]
    simp only [daysFromCivilShifted]
    rw [if_neg (by omega : ¬ (mp + 3 ≤ 2)), if_pos (by omega : 2 < mp + 3),
      Nat.add_sub_cancel]
    rw [show yoe + era * 400 + 400 = 400 * (era + 1) + yoe from by ring]
    rw [Nat.mul_add_div (by norm_num) (era + 1), Nat.mul_add_mod 400 (era + 1) yoe,
      Nat.div_eq_of_lt hyoe400, Nat.mod_eq_of_lt hyoe400, Nat.add_zero]
    rw [show (153 * mp + 2) / 5 + (doy - (153 * mp + 2) / 5 + 1) - 1 = doy from by omega]
    omega
  · have hm2 : (if mp < 10 then mp + 3 else mp - 9) ≤ 2 := by
      rw [if_neg hcase]; omega
    rw [if_pos hm2, if_neg hcase]
    simp only [daysFromCivilShifted]
    rw [if_pos (by omega : mp - 9 ≤ 2), if_neg (by omega : ¬ (2 < mp - 9)),
      show mp - 9 + 9 = mp from by omega]
    rw [show yoe + era * 400 + 1 + 399 = 400 * (era + 1) + yoe from by ring]
    rw [Nat.mul_add_div (by norm_num) (era + 1), Nat.mul_add_mod 400 (era + 1) yoe,
      Nat.div_eq_of_lt hyoe400, Nat.mod_eq_of_lt hyoe400, Nat.add_zero]
    rw [show (153 * mp + 2) / 5 + (doy - (153 * mp + 2) / 5 + 1) - 1 = doy from by omega]
    omega

theorem civil_roundtrip (z : Nat) :
    daysFromCivilShifted (civilFromDays z).1 (civilFromDays z).2.1
        (civilFromDays z).2.2 = z + 146097 := by
  have h := civil_reconstruct (z / 146097) (z % 146097)
    ((z % 146097 - z % 146097 / 1460 + z % 146097 / 36524 - z % 146097 / 146096) / 365)
    _ _ (Nat.mod_lt _ (by norm_num)) rfl rfl rfl
  exact h.trans (by omega)

theorem isLeapYear_iff (y : Nat) :
    isLeapYear y = true ↔ (y % 4 = 0 ∧ (¬ y % 100 = 0 ∨ y % 400 = 0)) := by
  simp [isLeapYear]

theorem civil_valid_core (era doe yoe doy mp : Nat)
    (hdoe : doe < 146097)
    (hyoe : yoe = (doe - doe / 1460 + doe / 36524 - doe / 146096) / 365)
    (hdoy : doy = doe - (365 * yoe + yoe / 4 - yoe / 100))
    (hmp : mp = (5 * doy + 2) / 153) :
    1 ≤ (if mp < 10 then mp + 3 else mp - 9)
      ∧ (if mp < 10 then mp + 3 else mp - 9) ≤ 12
      ∧ 1 ≤ doy - (153 * mp + 2) / 5 + 1
      ∧ doy - (153 * mp + 2) / 5 + 1
          ≤ daysInMonth
              (if (if mp < 10 then mp + 3 else mp - 9) ≤ 2 then yoe + era * 400 + 1
                else yoe + era * 400)
              (if mp < 10 then mp + 3 else mp - 9) := by
  obtain ⟨hyoe400, hle, hdoy366, hleap⟩ := civil_core doe _ yoe hdoe rfl hyoe
  clear hyoe
  rw [← hdoy] at hdoy366 hleap
  obtain ⟨hmp12, hd5, hdd1, hdd31, h30, h29, h306⟩ := month_table doy hdoy366
  rw [← hmp] at hmp12 hd5 hdd1 hdd31 h30 h29 h306
  by_cases hcase : mp < 10
  · have hm3 : ¬ ((if mp < 10 then mp + 3 else mp - 9) ≤ 2) := by
      rw [if_pos hcase]; omega
    rw [if_neg hm3, if_pos hcase]
    refine ⟨by omega, by omega, hdd1, ?_⟩
    by_cases h4 : mp = 1 ∨ mp = 3 ∨ mp = 6 ∨ mp = 8
    · have : mp + 3 = 4 ∨ mp + 3 = 6 ∨ mp + 3 = 9 ∨ mp + 3 = 11 := by omega
      rw [daysInMonth, if_neg (by omega : ¬ (mp + 3 = 2)), if_pos this]
      exact h30 h4
    · have : ¬ (mp + 3 = 4 ∨ mp + 3 = 6 ∨ mp + 3 = 9 ∨ mp + 3 = 11) := by omega
      rw [daysInMonth, if_neg (by omega : ¬ (mp + 3 = 2)), if_neg this]
      exact hdd31
  · have hm2 : (if mp < 10 then mp + 3 else mp - 9) ≤ 2 := by
      rw [if_neg hcase]; omega
    rw [if_pos hm2, if_neg hcase]
    by_cases hmp10 : mp = 10
    · subst hmp10
      refine ⟨by omega, by omega, hdd1, ?_⟩
      rw [daysInMonth]
      norm_num
      exact hdd31
    · have hmp11 : mp = 11 := by omega
      subst hmp11
      obtain ⟨h29a, h29b⟩ := h29 rfl
      refine ⟨by omega, by omega, hdd1, ?_⟩
      rw [daysInMonth, if_pos (by norm_num : (11 : Nat) - 9 = 2)]
      by_cases hl : isLeapYear (yoe + era * 400 + 1) = true
      · rw [if_pos hl]
        exact h29a
      · rw [if_neg hl]
        by_contra hgt
        have hdd29 : doy - (153 * 11 + 2) / 5 + 1 = 29 := by omega
        have h365 : doy = 365 := h29b hdd29
        obtain ⟨hl4, hl100⟩ := hleap (by omega)
        rw [isLeapYear_iff] at hl
        push_neg at hl
        omega

theorem civil_year_le_core (era doe yoe doy mp : Nat)
    (hera : era ≤ 24) (hlast : era = 24 → doe ≤ 146036)
    (hdoe : doe < 146097)
    (hyoe : yoe = (doe - doe / 1460 + doe / 36524 - doe / 146096) / 365)
    (hdoy : doy = doe - (365 * yoe + yoe / 4 - yoe / 100))
    (hmp : mp = (5 * doy + 2) / 153) :
    (if (if mp < 10 then mp + 3 else mp - 9) ≤ 2 then yoe + era * 400 + 1
      else yoe + era * 400) ≤ 9999 := by
  obtain ⟨hyoe400, hle, hdoy366, -⟩ := civil_core doe _ yoe hdoe rfl hyoe
  clear hyoe
  rw [← hdoy] at hdoy366
  obtain ⟨hmp12, hd5, -, -, -, -, h306⟩ := month_table doy hdoy366
  rw [← hmp] at hmp12 hd5 h306
  have hdoyEq : 365 * yoe + yoe / 4 - yoe / 100 + doy = doe := by omega
  clear hdoy hmp hle hdoy366
  by_cases hcase : mp < 10
  · rw [if_neg (by rw [if_pos hcase]; omega :
      ¬ ((if mp < 10 then mp + 3 else mp - 9) ≤ 2))]
    omega
  · rw [if_pos (by rw [if_neg hcase]; omega :
      (if mp < 10 then mp + 3 else mp - 9) ≤ 2)]
    have hdoy306 : 306 ≤ doy := h306.mp (by omega)
    omega

theorem civilFromDays_valid (z : Nat) :
    1 ≤ (civilFromDays z).2.1 ∧ (civilFromDays z).2.1 ≤ 12 ∧
      1 ≤ (civilFromDays z).2.2 ∧
      (civilFromDays z).2.2 ≤ daysInMonth (civilFromDays z).1 (civilFromDays z).2.1 :=
  civil_valid_core (z / 146097) (z % 146097) _ _ _
    (Nat.mod_lt _ (by norm_num)) rfl rfl rfl

theorem civilFromDays_year_le (z : Nat) (hz : z ≤ 3652364) :
    (civilFromDays z).1 ≤ 9999 :=
  civil_year_le_core (z / 146097) (z % 146097) _ _ _
    (by omega) (fun h => by omega) (Nat.mod_lt _ (by norm_num)) rfl rfl rfl

theorem daysInMonth_le (y m : Nat) : daysInMonth y m ≤ 31 := by
  unfold daysInMonth
  split
  · split <;> omega
  · split <;> omega

/-- Decimal digit character. -/
def digitChar (d : Nat) : Char := Char.ofNat (48 + d)

/-- Two-digit zero-padded decimal rendering (values below 100). -/
def pad2 (n : Nat) : List Char := [digitChar (n / 10), digitChar (n % 10)]

/-- Three-digit zero-padded decimal rendering (values below 1000). -/
def pad3 (n : Nat) : List Char :=
  [digitChar (n / 100), digitChar (n / 10 % 10), digitChar (n % 10)]

/-- Four-digit zero-padded decimal rendering (values below 10000). -/
def pad4 (n : Nat) : List Char :=
  [digitChar (n / 1000), digitChar (n / 100 % 10), digitChar (n / 10 % 10),
    digitChar (n % 10)]

/-- Date.prototype.toISOString (invoked by JSON.stringify on every Date):
renders a millisecond timestamp as YYYY-MM-DDTHH:mm:ss.sssZ. Faithful for
the timestamps this program stores (new Date() values, years 1970..9999);
the expanded-year forms toISOString uses outside that window are not
modelled. -/
def toISOString (t : Nat) : String :=
  let msod := t % 86400000
  let c := civilFromDays (t / 86400000 + 719468)
  String.mk (pad4 c.1 ++ '-' :: pad2 c.2.1 ++ '-' :: pad2 c.2.2 ++
    'T' :: pad2 (msod / 3600000) ++ ':' :: pad2 (msod % 3600000 / 60000) ++
    ':' :: pad2 (msod % 60000 / 1000) ++ '.' :: pad3 (msod % 1000) ++ ['Z'])

/-- Numeric value of a decimal digit character. -/
def digitVal (c : Char) : Option Nat :=
  if c.isDigit then some (c.toNat - 48) else none

/-- Value of a fixed-width decimal digit group; none when a character is not
a digit. -/
def parseDigits (cs : List Char) : Option Nat :=
  cs.foldl (fun acc c =>
    match acc, digitVal c with
    | some n, some d => some (10 * n + d)
    | _, _ => none) (some 0)

/-- The ECMAScript date-time string parse performed by new Date(string), for
the canonical 24-character UTC layout produced by toISOString. Fields are
range-checked (day of month against the leap-aware month length, as the
engines do); a string in any other layout is modelled as unparseable, giving
an Invalid Date (none). -/
def parseDate (s : String) : Option Int :=
  match s.data with
  | [y1, y2, y3, y4, a1, m1, m2, a2, d1, d2, a3, h1, h2, a4, i1, i2, a5,
      x1, x2, a6, f1, f2, f3, a7] =>
    match parseDigits [y1, y2, y3, y4], parseDigits [m1, m2], parseDigits [d1, d2],
        parseDigits [h1, h2], parseDigits [i1, i2], parseDigits [x1, x2],
        parseDigits [f1, f2, f3] with
    | some y, some mo, some dd, some hh, some mi, some ss, some ms =>
      if a1 = '-' ∧ a2 = '-' ∧ a3 = 'T' ∧ a4 = ':' ∧ a5 = ':' ∧ a6 = '.' ∧ a7 = 'Z'
          ∧ 1 ≤ mo ∧ mo ≤ 12 ∧ 1 ≤ dd ∧ dd ≤ daysInMonth y mo
          ∧ (hh ≤ 23 ∨ (hh = 24 ∧ mi = 0 ∧ ss = 0 ∧ ms = 0)) ∧ mi ≤ 59 ∧ ss ≤ 59 then
        some (((daysFromCivilShifted y mo dd : Int) - 865565) * 86400000
          + hh * 3600000 + mi * 60000 + ss * 1000 + ms)
      else none
    | _, _, _, _, _, _, _ => none
  | _ => none

theorem digitVal_digitChar (d : Nat) (h : d < 10) :
    digitVal (digitChar d) = some d := by
  interval_cases d <;> decide

theorem parseDigits_pad2 (n : Nat) (h : n < 100) :
    parseDigits [digitChar (n / 10), digitChar (n % 10)] = some n := by
  have h1 := digitVal_digitChar (n / 10) (by omega)
  have h2 := digitVal_digitChar (n % 10) (by omega)
  simp only [parseDigits, List.foldl_cons, List.foldl_nil, h1, h2]
  congr 1
  omega

theorem parseDigits_pad3 (n : Nat) (h : n < 1000) :
    parseDigits [digitChar (n / 100), digitChar (n / 10 % 10), digitChar (n % 10)]
      = some n := by
  have h1 := digitVal_digitChar (n / 100) (by omega)
  have h2 := digitVal_digitChar (n / 10 % 10) (by omega)
  have h3 := digitVal_digitChar (n % 10) (by omega)
  simp only [parseDigits, List.foldl_cons, List.foldl_nil, h1, h2, h3]
  congr 1
  omega

theorem parseDigits_pad4 (n : Nat) (h : n < 10000) :
    parseDigits [digitChar (n / 1000), digitChar (n / 100 % 10),
      digitChar (n / 10 % 10), digitChar (n % 10)] = some n := by
  have h1 := digitVal_digitChar (n / 1000) (by omega)
  have h2 := digitVal_digitChar (n / 100 % 10) (by omega)
  have h3 := digitVal_digitChar (n / 10 % 10) (by omega)
  have h4 := digitVal_digitChar (n % 10) (by omega)
  simp only [parseDigits, List.foldl_cons, List.foldl_nil, h1, h2, h3, h4]
  congr 1
  omega

theorem parse_format (y mo dd hh mi ss ms : Nat)
    (hy : y ≤ 9999) (hmo1 : 1 ≤ mo) (hmo12 : mo ≤ 12) (hdd1 : 1 ≤ dd)
    (hddM : dd ≤ daysInMonth y mo) (hdd31 : dd ≤ 31) (hh23 : hh ≤ 23)
    (hmi : mi ≤ 59) (hss : ss ≤ 59) (hms : ms ≤ 999) :
    parseDate (String.mk (pad4 y ++ '-' :: pad2 mo ++ '-' :: pad2 dd ++
        'T' :: pad2 hh ++ ':' :: pad2 mi ++ ':' :: pad2 ss ++ '.' :: pad3 ms ++ ['Z']))
      = some (((daysFromCivilShifted y mo dd : Int) - 865565) * 86400000
          + hh * 3600000 + mi * 60000 + ss * 1000 + ms) := by
  simp only [pad4, pad3, pad2, List.cons_append, List.nil_append]
  simp only [parseDate]
  rw [parseDigits_pad4 _ (by omega), parseDigits_pad2 _ (by omega),
    parseDigits_pad2 _ (by omega), parseDigits_pad2 _ (by omega),
    parseDigits_pad2 _ (by omega), parseDigits_pad2 _ (by omega),
    parseDigits_pad3 _ (by omega)]
  simp only [true_and]
  rw [if_pos ⟨hmo1, hmo12, hdd1, hddM, Or.inl hh23, hmi, hss⟩]

/-- Round trip of the runtime date codec: parsing the ISO rendering of any
timestamp with a four-digit year returns the same timestamp. -/
theorem parseDate_toISOString (t : Nat) (ht : t ≤ 253402300799999) :
    parseDate (toISOString t) = some (t : Int) := by
  have hz : t / 86400000 + 719468 ≤ 3652364 := by omega
  obtain ⟨hmo1, hmo12, hdd1, hddM⟩ := civilFromDays_valid (t / 86400000 + 719468)
  have hyear := civilFromDays_year_le (t / 86400000 + 719468) hz
  have hrt := civil_roundtrip (t / 86400000 + 719468)
  have hdd31 : (civilFromDays (t / 86400000 + 719468)).2.2 ≤ 31 :=
    le_trans hddM (daysInMonth_le _ _)
  have h := parse_format (civilFromDays (t / 86400000 + 719468)).1
    (civilFromDays (t / 86400000 + 719468)).2.1
    (civilFromDays (t / 86400000 + 719468)).2.2
    (t % 86400000 / 3600000) (t % 86400000 % 3600000 / 60000)
    (t % 86400000 % 60000 / 1000) (t % 86400000 % 1000)
    hyear hmo1 hmo12 hdd1 hddM hdd31 (by omega) (by omega) (by omega) (by omega)
  rw [hrt] at h
  simp only [toISOString]
  rw [h]
  simp only [Option.some.injEq]
  push_cast
  omega

/-- A JSON parse tree. Numbers are integers here; the program never stores
fractional numbers under the todos key. -/
inductive Json where
  | null
  | bool (b : Bool)
  | num (n : Int)
  | str (s : String)
  | arr (elems : List Json)
  | obj (fields : List (String × Json))

/-- A value held under the localStorage todos key, abstracted at the level of
JSON text: malformed stands for any string JSON.parse throws on, value j for
a string whose parse tree is j. -/
inductive Stored where
  | malformed
  | value (j : Json)

/-- A runtime JavaScript value as produced by JSON.parse with the reviver of
App.tsx lines 13-15: JSON values plus Date objects, a Date being a
millisecond timestamp or none for an Invalid Date. -/
inductive JsValue where
  | null
  | bool (b : Bool)
  | num (n : Int)
  | str (s : String)
  | date (d : Option Int)
  | arr (elems : List JsValue)
  | obj (fields : List (String × JsValue))

/-- The expression new Date(value) of the reviver. A string is parsed as a
date string; a number is taken as a timestamp; null and booleans coerce to 0
and 0/1; arrays and objects are modelled as giving an Invalid Date (their
JavaScript string-coercion corner cases never arise from data this program
writes). -/
def jsNewDate : JsValue → JsValue
  | .str s => .date (parseDate s)
  | .num n => .date (some n)
  | .null => .date (some 0)
  | .bool b => .date (some (if b then 1 else 0))
  | .date d => .date d
  | _ => .date none

mutual
/-- JSON.parse with the reviver of App.tsx lines 13-15: the parse tree is
walked bottom-up and every object property stored under the key createdAt is
replaced by new Date(value); all other values pass through unchanged (the
top-level value is passed to the reviver under the key "", which never equals
createdAt, and array elements under their index keys, which never equal it
either). -/
def revive : Json → JsValue
  | .null => .null
  | .bool b => .bool b
  | .num n => .num n
  | .str s => .str s
  | .arr elems => .arr (reviveArr elems)
  | .obj fields => .obj (reviveFields fields)

/-- Elementwise revival of a JSON array. -/
def reviveArr : List Json → List JsValue
  | [] => []
  | j :: js => revive j :: reviveArr js

/-- Revival of the properties of a JSON object, applying new Date to values
stored under the key createdAt. -/
def reviveFields : List (String × Json) → List (String × JsValue)
  | [] => []
  | (k, v) :: fs =>
    (k, if k = "createdAt" then jsNewDate (revive v) else revive v) :: reviveFields fs
end

/-- The JSON tree JSON.stringify produces for one Todo (App.tsx line 34):
properties in insertion order of the literal at lines 53-58, the Date
serialized through toISOString (Date.prototype.toJSON). -/
def encodeTodo (t : Todo) : Json :=
  .obj [("id", .str t.id), ("text", .str t.text), ("completed", .bool t.completed),
    ("createdAt", .str (toISOString t.createdAt))]

/-- The persistence effect of the useEffect at App.tsx lines 33-35:
localStorage.setItem with JSON.stringify of the whole collection. -/
def saveTodos (todos : List Todo) : Stored :=
  .value (.arr (todos.map encodeTodo))

/-- The useState initializer at App.tsx lines 9-22: absent key (and the empty
string, which is falsy) gives the empty array, a string JSON.parse throws on
is caught and gives the empty array, and any other value is returned exactly
as JSON.parse delivers it, with no structural validation. -/
def loadTodos (stored : Option Stored) : JsValue :=
  match stored with
  | none => .arr []
  | some .malformed => .arr []
  | some (.value j) => revive j

/-- The runtime value a Todo becomes after a faithful save and load: the same
four fields with the createdAt Date carrying the same timestamp. -/
def jsOfTodo (t : Todo) : JsValue :=
  .obj [("id", .str t.id), ("text", .str t.text), ("completed", .bool t.completed),
    ("createdAt", .date (some (t.createdAt : Int)))]

theorem revive_encodeTodo (t : Todo) (h : t.createdAt ≤ 253402300799999) :
    revive (encodeTodo t) = jsOfTodo t := by
  simp only [encodeTodo, revive, reviveFields, jsOfTodo, jsNewDate]
  simp
  exact parseDate_toISOString t.createdAt h

theorem reviveArr_encode (todos : List Todo)
    (h : ∀ t ∈ todos, t.createdAt ≤ 253402300799999) :
    reviveArr (todos.map encodeTodo) = todos.map jsOfTodo := by
  induction todos with
  | nil => rfl
  | cons t ts ih =>
    simp only [List.map_cons, reviveArr]
    rw [revive_encodeTodo t (h t (List.mem_cons_self t ts)),
      ih fun x hx => h x (List.mem_cons_of_mem t hx)]

/-- Claim C7: saving any Task Collection and loading it back yields a
collection equal to the original element for element in id, text, completed
and createdAt; the createdAt timestamp is encoded to an ISO-8601 string on
save and decoded back to an equal timestamp on load. Timestamps are assumed
to lie in the four-digit-year range of the ISO form (every date the program
creates does). -/
theorem saveTodos_loadTodos_roundtrip (todos : List Todo)
    (h : ∀ t ∈ todos, t.createdAt ≤ 253402300799999) :
    loadTodos (some (saveTodos todos)) = JsValue.arr (todos.map jsOfTodo) := by
  simp only [loadTodos, saveTodos, revive]
  rw [reviveArr_encode todos h]

theorem saveTodos_loadTodos_roundtrip_witness :
    loadTodos (some (saveTodos
        [{ id := "id1", text := "Buy milk", completed := false,
           createdAt := 1700000000000 }]))
      = JsValue.arr [JsValue.obj [("id", JsValue.str "id1"),
          ("text", JsValue.str "Buy milk"), ("completed", JsValue.bool false),
          ("createdAt", JsValue.date (some 1700000000000))]] :=
  saveTodos_loadTodos_roundtrip
    [{ id := "id1", text := "Buy milk", completed := false,
       createdAt := 1700000000000 }] (by decide)

/-- Claim C8 counterexample: the stored value 5 is valid JSON of invalid
structure (not an array of task objects), yet loadTodos returns it as is
rather than the empty collection. -/
theorem loadTodos_invalid_structure_counterexample :
    loadTodos (some (Stored.value (Json.num 5))) = JsValue.num 5 ∧
      loadTodos (some (Stored.value (Json.num 5))) ≠ JsValue.arr [] :=
  ⟨rfl, fun h => JsValue.noConfusion h⟩

/-- Claim C8 amended: loadTodos returns the empty collection when the key is
absent and when the stored text is not parseable JSON (the parse throws, the
catch returns the empty array); but a stored value that parses to JSON of
invalid structure is returned without validation rather than replaced by the
empty collection, and an undecodable timestamp string yields a task whose
createdAt is an Invalid Date, not an empty collection. No case raises an
error. -/
theorem loadTodos_amended :
    loadTodos none = JsValue.arr []
      ∧ loadTodos (some Stored.malformed) = JsValue.arr []
      ∧ (∀ j : Json, loadTodos (some (Stored.value j)) = revive j)
      ∧ loadTodos (some (Stored.value (Json.arr [Json.obj [("id", Json.str "a"),
            ("text", Json.str "x"), ("completed", Json.bool false),
            ("createdAt", Json.str "garbage")]])))
        = JsValue.arr [JsValue.obj [("id", JsValue.str "a"),
            ("text", JsValue.str "x"), ("completed", JsValue.bool false),
            ("createdAt", JsValue.date none)]] :=
  ⟨rfl, rfl, fun j => rfl, rfl⟩
